import Mathlib

/-!
Shallow embedding of the restaurant ordering/reservation backend
(`src/server/firestore-storage.ts` and the order routes of
`src/server/firebase.ts`).

The Firestore document store is modelled as an association list from
document id to a raw document record.  Optional / possibly-absent fields
of raw documents are `Option`-typed; JavaScript truthiness coercions
(`x || d`, `x ?? d`, `!x`) are embedded explicitly, with `0` and `""`
falsy.  Firestore `Timestamp`s are modelled as `Nat` instants (the
`toDate` round-trip is the identity on them).  `randomUUID()` and
`new Date()` are passed in as explicit parameters.  A `fail : Bool`
parameter on each gateway operation models the `try`/`catch` boundary:
`fail = true` is the path where the store raised, `fail = false` the
normal path.
-/

/-- JS `v || d` on an optional string field: absent and `""` are falsy. -/
def strOrD (v : Option String) (d : String) : String :=
  match v with
  | none => d
  | some s => if s = "" then d else s

/-- JS `v || null` on an optional string field: absent and `""` go to null. -/
def strOrNull (v : Option String) : Option String :=
  match v with
  | none => none
  | some s => if s = "" then none else some s

/-- JS `v || null` on an optional numeric id: absent and `0` go to null. -/
def natOrNull (v : Option Nat) : Option Nat :=
  match v with
  | none => none
  | some n => if n = 0 then none else some n

/-- JS `!v` on an optional numeric id: absent and `0` are falsy. -/
def optNatFalsy (v : Option Nat) : Bool :=
  match v with
  | none => true
  | some n => n == 0

/-- A loosely typed monetary value as found in a schema-less document:
either a JS number (modelled as an integer) or a string. -/
inductive MoneyVal where
  | num (n : Int)
  | str (s : String)
deriving DecidableEq

/-- `typeof v === 'number' ? v.toString() : v` — the normalization applied
to monetary fields on create/update. -/
def moneyToString : MoneyVal → String
  | .num n => toString n
  | .str s => s

/-- JS truthiness of a monetary value (`0` and `""` falsy). -/
def moneyTruthy : MoneyVal → Bool
  | .num n => n != 0
  | .str s => s ≠ ""

/-- JS `v || d` on an optional monetary field. -/
def moneyOrD (v : Option MoneyVal) (d : MoneyVal) : MoneyVal :=
  match v with
  | none => d
  | some m => if moneyTruthy m then m else d

/-- First document stored under `id` (Firestore keys are unique, so this is
the document under `id` when present). -/
def lookupDoc {β : Type} (id : String) : List (String × β) → Option β
  | [] => none
  | kd :: rest => if kd.1 = id then some kd.2 else lookupDoc id rest

/-- Insertion into a list sorted by the boolean comparator `le`
(models the ordered result set of a Firestore `orderBy` query). -/
def insertLe {α : Type} (le : α → α → Bool) (a : α) : List α → List α
  | [] => [a]
  | b :: l => if le a b then a :: b :: l else b :: insertLe le a l

/-- Insertion sort by the boolean comparator `le`. -/
def sortByLe {α : Type} (le : α → α → Bool) : List α → List α
  | [] => []
  | a :: l => insertLe le a (sortByLe le l)

/-- One step of the handler's JS `Map.set` loop: if an element with the same
key is present it is overwritten in place (last write wins), otherwise the
element is appended (JS `Map` preserves first-insertion key order). -/
def mapSetStep {α : Type} (key : α → String) (acc : List α) (o : α) : List α :=
  if acc.any (fun x => key x == key o) then
    acc.map (fun x => if key x == key o then o else x)
  else acc ++ [o]

/-- `Array.from(new Map(l.map(x => [key x, x])).values())`, built by the
handler's `forEach` over `l`. -/
def dedupByKey {α : Type} (key : α → String) (l : List α) : List α :=
  l.foldl (mapSetStep key) []


/-- `setDoc(doc(db, coll, id), d)`: create-or-replace the document at `id`. -/
def setDocIn {β : Type} (id : String) (d : β) (store : List (String × β)) :
    List (String × β) :=
  if store.any (fun kd => kd.1 == id) then
    store.map (fun kd => if kd.1 == id then (id, d) else kd)
  else store ++ [(id, d)]

/-- Firestore `updateDoc` at `id`: merge `f` into the stored document under
`id`, leaving every other document untouched. -/
def updateDocIn {β : Type} (id : String) (f : β → β) (store : List (String × β)) :
    List (String × β) :=
  store.map (fun kd => if kd.1 == id then (kd.1, f kd.2) else kd)

/-- A category document (`categories` collection); the stored document body
carries the same fields as the domain record, `id` included. -/
structure Category where
  id : String
  name : String
  description : Option String
  order : Nat
deriving DecidableEq

/-- The fixed default category set seeded by `initializeCategories`. -/
def categoriesData : List Category :=
  [ { id := "crepe", name := "Crêpe",
      description := some "Délicieuses crêpes artisanales", order := 1 },
    { id := "cheesecake", name := "Cheesecake",
      description := some "Cheesecakes onctueux et savoureux", order := 2 },
    { id := "donuts", name := "Donuts",
      description := some "Donuts moelleux et gourmands", order := 3 },
    { id := "mini-pancakes", name := "Mini-Pancakes",
      description := some "Mini-pancakes délicieux", order := 4 },
    { id := "fondant", name := "Fondant",
      description := some "Fondants au chocolat fondant", order := 5 },
    { id := "tiramisu", name := "Tiramisu",
      description := some "Tiramisu traditionnel et créatif", order := 6 },
    { id := "boissons-fraiches", name := "Boissons Fraîches",
      description := some "Jus de fruits frais", order := 7 },
    { id := "boissons-chaudes", name := "Boissons Chaudes",
      description := some "Café, thé et boissons chaudes", order := 8 } ]

/-- `FirestoreStorage.initializeCategories`: seed the default categories
only when the collection snapshot is empty; the surrounding `try`/`catch`
means a backend failure (`fail = true`) leaves the store untouched. -/
def initializeCategories (fail : Bool) (store : List (String × Category)) :
    List (String × Category) :=
  if fail then store
  else if store.isEmpty then
    categoriesData.foldl (fun s c => setDocIn c.id c s) store
  else store

/-- `FirestoreStorage.getCategories`: ordered by `order` ascending; a backend
failure degrades to the empty list.  The route mapper spreads the document
body (which carries its own `id`) over `{id: doc.id}`, so the result is the
document body itself. -/
def getCategories (fail : Bool) (store : List (String × Category)) :
    List Category :=
  if fail then []
  else sortByLe (fun a b => decide (a.order ≤ b.order)) (store.map Prod.snd)

/-- A menu item document (`menuItems` collection) as stored: loosely typed,
optional fields possibly absent. -/
structure MenuItemDoc where
  name : String
  description : String
  price : MoneyVal
  deliveryFee : Option MoneyVal
  categoryId : String
  imageUrl : Option String
  available : Option Bool
  popular : Option Bool
deriving DecidableEq

/-- The typed MenuItem domain record.  `price` stays loosely typed because
the read mapper passes `data.price` through unconverted. -/
structure MenuItem where
  id : String
  name : String
  description : String
  price : MoneyVal
  deliveryFee : MoneyVal
  categoryId : String
  imageUrl : Option String
  available : Bool
  popular : Bool
deriving DecidableEq

/-- The read mapper shared by `getMenuItems` / `getMenuItem`:
`deliveryFee: data.deliveryFee || "0"`, `imageUrl: data.imageUrl || null`,
`available: data.available !== false`, `popular: data.popular || false`. -/
def menuDocToItem (id : String) (d : MenuItemDoc) : MenuItem :=
  { id := id
    name := d.name
    description := d.description
    price := d.price
    deliveryFee := moneyOrD d.deliveryFee (MoneyVal.str "0")
    categoryId := d.categoryId
    imageUrl := strOrNull d.imageUrl
    available := d.available != some false
    popular := d.popular == some true }

/-- `FirestoreStorage.getMenuItems` (no ordering clause). -/
def getMenuItems (fail : Bool) (store : List (String × MenuItemDoc)) :
    List MenuItem :=
  if fail then []
  else store.map (fun kd => menuDocToItem kd.1 kd.2)

/-- `FirestoreStorage.getMenuItem`: point lookup; absent document and
backend failure both yield `undefined`. -/
def getMenuItem (fail : Bool) (id : String) (store : List (String × MenuItemDoc)) :
    Option MenuItem :=
  if fail then none
  else (lookupDoc id store).map (menuDocToItem id)

/-- The validated creation payload for a menu item (`InsertMenuItem`). -/
structure InsertMenuItem where
  name : String
  description : String
  price : MoneyVal
  deliveryFee : Option MoneyVal := none
  categoryId : String
  imageUrl : Option String := none
  available : Option Bool := none
  popular : Option Bool := none
deriving DecidableEq

/-- Write-side view of a MenuItem record as a stored document. -/
def menuItemToDoc (item : MenuItem) : MenuItemDoc :=
  { name := item.name
    description := item.description
    price := item.price
    deliveryFee := some item.deliveryFee
    categoryId := item.categoryId
    imageUrl := item.imageUrl
    available := some item.available
    popular := some item.popular }

/-- `FirestoreStorage.createMenuItem`; `id` is the fresh `randomUUID()`.
Monetary fields: `typeof v === 'number' ? v.toString() : v`, with
`deliveryFee ?? "0"` when absent. -/
def createMenuItem (insertItem : InsertMenuItem) (id : String)
    (store : List (String × MenuItemDoc)) :
    MenuItem × List (String × MenuItemDoc) :=
  let item : MenuItem :=
    { id := id
      name := insertItem.name
      description := insertItem.description
      price :=
        match insertItem.price with
        | MoneyVal.num n => MoneyVal.str (toString n)
        | MoneyVal.str s => MoneyVal.str s
      deliveryFee :=
        match insertItem.deliveryFee with
        | some (MoneyVal.num n) => MoneyVal.str (toString n)
        | some (MoneyVal.str s) => MoneyVal.str s
        | none => MoneyVal.str "0"
      categoryId := insertItem.categoryId
      imageUrl := insertItem.imageUrl
      available := insertItem.available.getD true
      popular := insertItem.popular.getD false }
  (item, setDocIn id (menuItemToDoc item) store)

/-- A partial update payload for a menu item: `none` = field absent from
the payload.  `imageUrl` distinguishes absent (`none`) from an explicit
null (`some none`), as the image-removal route sends `{imageUrl: null}`. -/
structure MenuItemUpdates where
  name : Option String := none
  description : Option String := none
  price : Option MoneyVal := none
  deliveryFee : Option MoneyVal := none
  categoryId : Option String := none
  imageUrl : Option (Option String) := none
  available : Option Bool := none
  popular : Option Bool := none
deriving DecidableEq

/-- The `normalizedUpdates` object after the undefined-stripping loop:
monetary fields present in the payload are string-normalized, fields that
resolved to `undefined` are removed (stay `none`). -/
def normalizeMenuUpdates (updates : MenuItemUpdates) : MenuItemUpdates :=
  { updates with
    price :=
      match updates.price with
      | some (MoneyVal.num n) => some (MoneyVal.str (toString n))
      | some (MoneyVal.str s) => some (MoneyVal.str s)
      | none => none
    deliveryFee :=
      match updates.deliveryFee with
      | some (MoneyVal.num n) => some (MoneyVal.str (toString n))
      | some (MoneyVal.str s) => some (MoneyVal.str s)
      | none => none }

/-- Firestore `updateDoc` merge: each field present in the payload replaces
the stored field, every other stored field is untouched. -/
def applyMenuUpdates (d : MenuItemDoc) (u : MenuItemUpdates) : MenuItemDoc :=
  { name := u.name.getD d.name
    description := u.description.getD d.description
    price := u.price.getD d.price
    deliveryFee :=
      match u.deliveryFee with
      | some v => some v
      | none => d.deliveryFee
    categoryId := u.categoryId.getD d.categoryId
    imageUrl :=
      match u.imageUrl with
      | some v => v
      | none => d.imageUrl
    available :=
      match u.available with
      | some v => some v
      | none => d.available
    popular :=
      match u.popular with
      | some v => some v
      | none => d.popular }

/-- `FirestoreStorage.updateMenuItem`: soft not-found, normalization,
undefined-stripping, `updateDoc` merge, then a re-read of the canonical
post-update state. -/
def updateMenuItem (fail : Bool) (id : String) (updates : MenuItemUpdates)
    (store : List (String × MenuItemDoc)) :
    Option MenuItem × List (String × MenuItemDoc) :=
  if fail then (none, store)
  else
    match lookupDoc id store with
    | none => (none, store)
    | some _ =>
      let store' := updateDocIn id
        (fun doc => applyMenuUpdates doc (normalizeMenuUpdates updates)) store
      (getMenuItem false id store', store')

/-- `FirestoreStorage.deleteMenuItem`: `deleteDoc` succeeds whether or not
the document exists; only a backend failure yields `false`. -/
def deleteMenuItem (fail : Bool) (id : String)
    (store : List (String × MenuItemDoc)) :
    Bool × List (String × MenuItemDoc) :=
  if fail then (false, store)
  else (true, store.filter (fun kd => kd.1 != id))

/-- A reservation document (`reservations` collection). -/
structure ReservationDoc where
  name : String
  email : String
  phone : String
  date : String
  time : String
  partySize : Nat
  specialRequests : Option String
  status : Option String
  createdAt : Nat
deriving DecidableEq

/-- The typed Reservation domain record. -/
structure Reservation where
  id : String
  name : String
  email : String
  phone : String
  date : String
  time : String
  partySize : Nat
  specialRequests : Option String
  status : String
  createdAt : Nat
deriving DecidableEq

/-- Read mapper of `getReservations`: `specialRequests || null`,
`status || "pending"`, timestamp converted back to an instant. -/
def resDocToReservation (id : String) (d : ReservationDoc) : Reservation :=
  { id := id
    name := d.name
    email := d.email
    phone := d.phone
    date := d.date
    time := d.time
    partySize := d.partySize
    specialRequests := strOrNull d.specialRequests
    status := strOrD d.status "pending"
    createdAt := d.createdAt }

/-- Descending `createdAt` comparator used by the order/reservation queries
(`orderBy('createdAt', 'desc')`). -/
def createdDesc {β : Type} (created : β → Nat) (a b : String × β) : Bool :=
  decide (created b.2 ≤ created a.2)

/-- `FirestoreStorage.getReservations`: full scan ordered by `createdAt`
descending; backend failure degrades to the empty list. -/
def getReservations (fail : Bool) (store : List (String × ReservationDoc)) :
    List Reservation :=
  if fail then []
  else (sortByLe (createdDesc ReservationDoc.createdAt) store).map
    (fun kd => resDocToReservation kd.1 kd.2)

/-- The validated creation payload for a reservation. -/
structure InsertReservation where
  name : String
  email : String
  phone : String
  date : String
  time : String
  partySize : Nat
  specialRequests : Option String := none
deriving DecidableEq

/-- `FirestoreStorage.createReservation`; `id` is the fresh `randomUUID()`
and `now` the creation instant (`new Date()`). -/
def createReservation (insertReservation : InsertReservation) (id : String)
    (now : Nat) (store : List (String × ReservationDoc)) :
    Reservation × List (String × ReservationDoc) :=
  let reservation : Reservation :=
    { id := id
      name := insertReservation.name
      email := insertReservation.email
      phone := insertReservation.phone
      date := insertReservation.date
      time := insertReservation.time
      partySize := insertReservation.partySize
      specialRequests := insertReservation.specialRequests
      status := "pending"
      createdAt := now }
  let docBody : ReservationDoc :=
    { name := reservation.name
      email := reservation.email
      phone := reservation.phone
      date := reservation.date
      time := reservation.time
      partySize := reservation.partySize
      specialRequests := reservation.specialRequests
      status := some reservation.status
      createdAt := now }
  (reservation, setDocIn id docBody store)

/-- An order document (`orders` collection) as stored: loosely typed,
optional fields possibly absent.  `items` and `totalAmount` are carried
through all mappers unmodified, so they are kept opaque strings. -/
structure OrderDoc where
  userId : Option Nat
  customerName : String
  customerEmail : String
  customerPhone : String
  items : String
  totalAmount : String
  orderType : String
  deliveryAddress : Option String
  notes : Option String
  status : Option String
  livreurId : Option Nat
  createdAt : Nat
  updatedAt : Nat
deriving DecidableEq

/-- The Order domain record.  `status` stays `Option`-typed because the
filtered-query mappers pass `data.status` through raw (only `getOrders` and
`getOrder` apply the `|| "pending"` default). -/
structure Order where
  id : String
  userId : Option Nat
  customerName : String
  customerEmail : String
  customerPhone : String
  items : String
  totalAmount : String
  orderType : String
  deliveryAddress : Option String
  notes : Option String
  status : Option String
  livreurId : Option Nat
  createdAt : Nat
  updatedAt : Nat
deriving DecidableEq

/-- Mapper of `getOrders` and `getOrder`: every optional field normalized
(`userId || null`, `deliveryAddress || null`, `notes || null`,
`status || "pending"`, `livreurId || null`). -/
def orderDocFull (id : String) (d : OrderDoc) : Order :=
  { id := id
    userId := natOrNull d.userId
    customerName := d.customerName
    customerEmail := d.customerEmail
    customerPhone := d.customerPhone
    items := d.items
    totalAmount := d.totalAmount
    orderType := d.orderType
    deliveryAddress := strOrNull d.deliveryAddress
    notes := strOrNull d.notes
    status := some (strOrD d.status "pending")
    livreurId := natOrNull d.livreurId
    createdAt := d.createdAt
    updatedAt := d.updatedAt }

/-- Mapper of `getOrdersByUser`: `userId` and `status` passed through raw,
`livreurId || null`. -/
def orderDocByUser (id : String) (d : OrderDoc) : Order :=
  { id := id
    userId := d.userId
    customerName := d.customerName
    customerEmail := d.customerEmail
    customerPhone := d.customerPhone
    items := d.items
    totalAmount := d.totalAmount
    orderType := d.orderType
    deliveryAddress := strOrNull d.deliveryAddress
    notes := strOrNull d.notes
    status := d.status
    livreurId := natOrNull d.livreurId
    createdAt := d.createdAt
    updatedAt := d.updatedAt }

/-- Mapper of `getOrdersByLivreur`: `status` and `livreurId` passed through
raw, `userId || null`. -/
def orderDocByLivreur (id : String) (d : OrderDoc) : Order :=
  { id := id
    userId := natOrNull d.userId
    customerName := d.customerName
    customerEmail := d.customerEmail
    customerPhone := d.customerPhone
    items := d.items
    totalAmount := d.totalAmount
    orderType := d.orderType
    deliveryAddress := strOrNull d.deliveryAddress
    notes := strOrNull d.notes
    status := d.status
    livreurId := d.livreurId
    createdAt := d.createdAt
    updatedAt := d.updatedAt }

/-- Mapper of `getPendingOrders`: `status` passed through raw,
`userId || null`, `livreurId || null`. -/
def orderDocPending (id : String) (d : OrderDoc) : Order :=
  { id := id
    userId := natOrNull d.userId
    customerName := d.customerName
    customerEmail := d.customerEmail
    customerPhone := d.customerPhone
    items := d.items
    totalAmount := d.totalAmount
    orderType := d.orderType
    deliveryAddress := strOrNull d.deliveryAddress
    notes := strOrNull d.notes
    status := d.status
    livreurId := natOrNull d.livreurId
    createdAt := d.createdAt
    updatedAt := d.updatedAt }

/-- `FirestoreStorage.getOrders`: full scan ordered by `createdAt`
descending. -/
def getOrders (fail : Bool) (store : List (String × OrderDoc)) : List Order :=
  if fail then []
  else (sortByLe (createdDesc OrderDoc.createdAt) store).map
    (fun kd => orderDocFull kd.1 kd.2)

/-- `FirestoreStorage.getOrder`: point lookup. -/
def getOrder (fail : Bool) (id : String) (store : List (String × OrderDoc)) :
    Option Order :=
  if fail then none
  else (lookupDoc id store).map (orderDocFull id)

/-- `FirestoreStorage.getOrdersByUser`:
`where('userId', '==', userId)` + `orderBy('createdAt', 'desc')`. -/
def getOrdersByUser (fail : Bool) (userId : Nat)
    (store : List (String × OrderDoc)) : List Order :=
  if fail then []
  else (sortByLe (createdDesc OrderDoc.createdAt)
      (store.filter (fun kd => kd.2.userId == some userId))).map
    (fun kd => orderDocByUser kd.1 kd.2)

/-- `FirestoreStorage.getOrdersByLivreur`:
`where('livreurId', '==', livreurId)` + `orderBy('createdAt', 'desc')`. -/
def getOrdersByLivreur (fail : Bool) (livreurId : Nat)
    (store : List (String × OrderDoc)) : List Order :=
  if fail then []
  else (sortByLe (createdDesc OrderDoc.createdAt)
      (store.filter (fun kd => kd.2.livreurId == some livreurId))).map
    (fun kd => orderDocByLivreur kd.1 kd.2)

/-- `FirestoreStorage.getPendingOrders`:
`where('status', '==', 'pending')` + `orderBy('createdAt', 'desc')`.
Note: the filter is on `status` alone — no condition on `livreurId`. -/
def getPendingOrders (fail : Bool) (store : List (String × OrderDoc)) :
    List Order :=
  if fail then []
  else (sortByLe (createdDesc OrderDoc.createdAt)
      (store.filter (fun kd => kd.2.status == some "pending"))).map
    (fun kd => orderDocPending kd.1 kd.2)

/-- The validated creation payload for an order (`InsertOrder`).  A `status`
field carried by the payload is never read by `createOrder`. -/
structure InsertOrder where
  userId : Option Nat := none
  customerName : String
  customerEmail : String
  customerPhone : String
  items : String
  totalAmount : String
  orderType : String
  deliveryAddress : Option String := none
  notes : Option String := none
  status : Option String := none
  livreurId : Option Nat := none
deriving DecidableEq

/-- `FirestoreStorage.createOrder`; `id` is the fresh `randomUUID()` and
`now` the single `new Date()` used for both timestamps. -/
def createOrder (insertOrder : InsertOrder) (id : String) (now : Nat)
    (store : List (String × OrderDoc)) :
    Order × List (String × OrderDoc) :=
  let order : Order :=
    { id := id
      userId := insertOrder.userId
      customerName := insertOrder.customerName
      customerEmail := insertOrder.customerEmail
      customerPhone := insertOrder.customerPhone
      items := insertOrder.items
      totalAmount := insertOrder.totalAmount
      orderType := insertOrder.orderType
      deliveryAddress := insertOrder.deliveryAddress
      notes := insertOrder.notes
      status := some "pending"
      livreurId := insertOrder.livreurId
      createdAt := now
      updatedAt := now }
  let docBody : OrderDoc :=
    { userId := order.userId
      customerName := order.customerName
      customerEmail := order.customerEmail
      customerPhone := order.customerPhone
      items := order.items
      totalAmount := order.totalAmount
      orderType := order.orderType
      deliveryAddress := order.deliveryAddress
      notes := order.notes
      status := order.status
      livreurId := order.livreurId
      createdAt := now
      updatedAt := now }
  (order, setDocIn id docBody store)

/-- The update payload the PATCH route hands to `updateOrder` (`none` =
field absent).  The route's `updatedAt` stamp is overwritten inside
`updateOrder` by its own `Timestamp.fromDate(new Date())`, so the stamp is
modelled once, inside `updateOrder`. -/
structure OrderUpdates where
  status : Option String := none
  livreurId : Option Nat := none
deriving DecidableEq

/-- Firestore `updateDoc` merge for an order plus the unconditional
`updatedAt` stamp added by `updateOrder`. -/
def applyOrderUpdates (d : OrderDoc) (u : OrderUpdates) (now : Nat) : OrderDoc :=
  { d with
    status :=
      match u.status with
      | some s => some s
      | none => d.status
    livreurId :=
      match u.livreurId with
      | some n => some n
      | none => d.livreurId
    updatedAt := now }

/-- `FirestoreStorage.updateOrder`: soft not-found, merge, stamp
`updatedAt`, then re-read the canonical post-update state. -/
def updateOrder (fail : Bool) (id : String) (u : OrderUpdates) (now : Nat)
    (store : List (String × OrderDoc)) :
    Option Order × List (String × OrderDoc) :=
  if fail then (none, store)
  else
    match lookupDoc id store with
    | none => (none, store)
    | some _ =>
      let store' := updateDocIn id (fun doc => applyOrderUpdates doc u now) store
      (getOrder false id store', store')

/-- The actor as the order routes see it (only `id` and `role` are read). -/
structure User where
  id : Nat
  role : String
deriving DecidableEq

/-- Result of the GET `/api/orders` route. -/
inductive ListOrdersResult where
  | userNotFound
  | ok (orders : List Order)
deriving DecidableEq

/-- GET `/api/orders` (`registerRoutes` in `firebase.ts`): owner sees all
orders; livreur sees `getPendingOrders` plus `getOrdersByLivreur(self)`,
merged through a JS `Map` keyed on order id; anyone else sees
`getOrdersByUser(self)`. -/
def listOrdersHandler (user : Option User) (fail : Bool)
    (store : List (String × OrderDoc)) : ListOrdersResult :=
  match user with
  | none => ListOrdersResult.userNotFound
  | some u =>
    if u.role = "owner" then ListOrdersResult.ok (getOrders fail store)
    else if u.role = "livreur" then
      let pendingOrders := getPendingOrders fail store
      let assignedOrders := getOrdersByLivreur fail u.id store
      ListOrdersResult.ok (dedupByKey Order.id (pendingOrders ++ assignedOrders))
    else ListOrdersResult.ok (getOrdersByUser fail u.id store)

/-- Outcome of the PATCH `/api/orders/:id` route. -/
inductive PatchOutcome where
  | userNotFound
  | orderNotFound
  | forbidden
  | ok (returned : Option Order)
deriving DecidableEq

/-- JS truthiness of `req.body.status`. -/
def statusTruthy : Option String → Bool
  | none => false
  | some s => s ≠ ""

/-- The `updates` object the PATCH route builds: a truthy requested status
is written, and when it is `'confirmed'`, the actor is a livreur and
`!order.livreurId` holds (on the normalized order returned by `getOrder`),
the actor's id is assigned as `livreurId`. -/
def patchUpd (u : User) (reqStatus : Option String) (order : Order) :
    OrderUpdates :=
  if statusTruthy reqStatus then
    { status := reqStatus
      livreurId :=
        if reqStatus == some "confirmed" && u.role == "livreur"
            && optNatFalsy order.livreurId
        then some u.id else none }
  else {}

/-- PATCH `/api/orders/:id` (`registerRoutes` in `firebase.ts`): only
`livreur`/`owner` may proceed; everyone else gets the 403 branch with no
write issued. -/
def patchOrderHandler (user : Option User) (oid : String)
    (reqStatus : Option String) (now : Nat)
    (store : List (String × OrderDoc)) :
    PatchOutcome × List (String × OrderDoc) :=
  match user with
  | none => (PatchOutcome.userNotFound, store)
  | some u =>
    match getOrder false oid store with
    | none => (PatchOutcome.orderNotFound, store)
    | some order =>
      if u.role = "livreur" ∨ u.role = "owner" then
        let r := updateOrder false oid (patchUpd u reqStatus order) now store
        (PatchOutcome.ok r.1, r.2)
      else (PatchOutcome.forbidden, store)

/-- Modelled from the spec (§4.3 visibility rule), for comparison with the
code's livreur branch of `listOrdersHandler`: whether the SPEC says order
`oid` is visible to courier `livreurId` — the union of (a) pending orders
with no assigned courier and (b) orders assigned to this courier. -/
def specLivreurSees (livreurId : Nat) (store : List (String × OrderDoc))
    (oid : String) : Bool :=
  store.any (fun kd => kd.1 == oid &&
    ((kd.2.status == some "pending" && natOrNull kd.2.livreurId == none)
      || natOrNull kd.2.livreurId == some livreurId))

/-- The store produced by seeding from an empty `categories` collection. -/
def seededCategories : List (String × Category) :=
  categoriesData.foldl (fun s c => setDocIn c.id c s) []

/-- Example order document: status `pending`, already assigned to courier 2. -/
def exPendingAssigned : OrderDoc :=
  { userId := none
    customerName := "Ali"
    customerEmail := "ali@example.com"
    customerPhone := "0555"
    items := "[]"
    totalAmount := "500"
    orderType := "delivery"
    deliveryAddress := none
    notes := none
    status := some "pending"
    livreurId := some 2
    createdAt := 1
    updatedAt := 1 }

/-- A one-order store holding `exPendingAssigned` under id `"O2"`. -/
def exStoreAssigned : List (String × OrderDoc) := [("O2", exPendingAssigned)]

/-- Example order document: status `pending`, unassigned. -/
def exPendingUnassigned : OrderDoc :=
  { exPendingAssigned with livreurId := none }

/-- A one-order store holding `exPendingUnassigned` under id `"O1"`. -/
def exStoreUnassigned : List (String × OrderDoc) := [("O1", exPendingUnassigned)]

/-- Example menu item document with every field populated. -/
def exMenuDoc : MenuItemDoc :=
  { name := "Nutella"
    description := "classique"
    price := MoneyVal.str "350"
    deliveryFee := some (MoneyVal.str "100")
    categoryId := "crepe"
    imageUrl := some "/storage/menu-items/a.png"
    available := some true
    popular := some false }

/-- A one-item menu store holding `exMenuDoc` under id `"M1"`. -/
def exMenuStore : List (String × MenuItemDoc) := [("M1", exMenuDoc)]

/-- Example menu item creation payload. -/
def exInsertMenuItem : InsertMenuItem :=
  { name := "Nutella"
    description := "classique"
    price := MoneyVal.str "350"
    categoryId := "crepe" }

/-- Example reservation document created at instant 1. -/
def exResDoc : ReservationDoc :=
  { name := "Sara"
    email := "sara@example.com"
    phone := "0666"
    date := "2025-01-01"
    time := "19:00"
    partySize := 2
    specialRequests := none
    status := some "pending"
    createdAt := 1 }

/-- A one-reservation store holding `exResDoc` under id `"R1"`. -/
def exResStore : List (String × ReservationDoc) := [("R1", exResDoc)]

/-- Example reservation creation payload. -/
def exInsertReservation : InsertReservation :=
  { name := "Nour"
    email := "nour@example.com"
    phone := "0777"
    date := "2025-01-02"
    time := "20:00"
    partySize := 4 }

/-- Round-trip scenario: the reservation list re-read right after
`createReservation` wrote the new document. -/
def reservationsAfterCreate (ins : InsertReservation) (id : String)
    (now : Nat) (storeR : List (String × ReservationDoc)) : List Reservation :=
  getReservations false (createReservation ins id now storeR).2

/-! ### Helper lemmas -/

theorem mem_insertLe {α : Type} (le : α → α → Bool) (a : α) (l : List α) (x : α) :
    x ∈ insertLe le a l ↔ x = a ∨ x ∈ l := by
  induction l with
  | nil => simp [insertLe]
  | cons b t ih =>
    rw [insertLe]
    by_cases h : le a b = true
    · rw [if_pos h]; simp
    · rw [if_neg h]
      simp only [List.mem_cons, ih]
      tauto

theorem mem_sortByLe {α : Type} (le : α → α → Bool) (l : List α) (x : α) :
    x ∈ sortByLe le l ↔ x ∈ l := by
  induction l with
  | nil => simp [sortByLe]
  | cons a t ih => simp [sortByLe, mem_insertLe, ih]

theorem pairwise_insertLe {α : Type} (le : α → α → Bool)
    (htot : ∀ a b, le a b = true ∨ le b a = true)
    (htr : ∀ a b c, le a b = true → le b c = true → le a c = true)
    (a : α) (l : List α) (h : l.Pairwise (fun x y => le x y = true)) :
    (insertLe le a l).Pairwise (fun x y => le x y = true) := by
  induction l with
  | nil => simp [insertLe]
  | cons b t ih =>
    rw [List.pairwise_cons] at h
    by_cases hab : le a b = true
    · rw [insertLe, if_pos hab]
      refine List.Pairwise.cons ?_ (List.pairwise_cons.mpr h)
      intro x hx
      rcases List.mem_cons.mp hx with rfl | hx
      · exact hab
      · exact htr a b x hab (h.1 x hx)
    · rw [insertLe, if_neg hab]
      refine List.Pairwise.cons ?_ (ih h.2)
      intro x hx
      rcases (mem_insertLe le a t x).mp hx with rfl | hx
      · rcases htot x b with h1 | h1
        · exact absurd h1 hab
        · exact h1
      · exact h.1 x hx

theorem pairwise_sortByLe {α : Type} (le : α → α → Bool)
    (htot : ∀ a b, le a b = true ∨ le b a = true)
    (htr : ∀ a b c, le a b = true → le b c = true → le a c = true)
    (l : List α) :
    (sortByLe le l).Pairwise (fun x y => le x y = true) := by
  induction l with
  | nil => exact List.Pairwise.nil
  | cons a t ih => exact pairwise_insertLe le htot htr a _ ih

theorem map_id_on {α : Type} (f : α → α) (l : List α) (h : ∀ x ∈ l, f x = x) :
    l.map f = l := by
  induction l with
  | nil => rfl
  | cons a t ih =>
    rw [List.map_cons, h a (List.mem_cons_self a t),
      ih (fun x hx => h x (List.mem_cons_of_mem a hx))]

theorem mem_mapSetStep {α : Type} (key : α → String) (acc : List α) (o : α)
    (hcoh : ∀ x ∈ acc, key x = key o → x = o) (y : α) :
    y ∈ mapSetStep key acc o ↔ y ∈ acc ∨ y = o := by
  unfold mapSetStep
  by_cases h : acc.any (fun x => key x == key o) = true
  · rw [if_pos h]
    obtain ⟨w, hw, hkw⟩ := List.any_eq_true.mp h
    have hwo : w = o := hcoh w hw (by simpa using hkw)
    have hmap : acc.map (fun x => if key x == key o then o else x) = acc := by
      refine map_id_on _ acc (fun x hx => ?_)
      by_cases hk : (key x == key o) = true
      · rw [if_pos hk, (hcoh x hx (by simpa using hk))]
      · rw [if_neg hk]
    rw [hmap]
    constructor
    · intro hy; exact Or.inl hy
    · rintro (hy | rfl)
      · exact hy
      · rw [← hwo]; exact hw
  · rw [if_neg h]
    simp

theorem mem_foldl_mapSet {α : Type} (key : α → String) (rest : List α) :
    ∀ (acc : List α),
      (∀ x ∈ acc ++ rest, ∀ y ∈ acc ++ rest, key x = key y → x = y) →
      ∀ z, z ∈ rest.foldl (mapSetStep key) acc ↔ z ∈ acc ∨ z ∈ rest := by
  induction rest with
  | nil => intro acc _ z; simp
  | cons r t ih =>
    intro acc hcoh z
    rw [List.foldl_cons]
    have hr : r ∈ acc ++ r :: t := by simp
    have hstep : ∀ y, y ∈ mapSetStep key acc r ↔ y ∈ acc ∨ y = r := by
      intro y
      exact mem_mapSetStep key acc r
        (fun x hx hk => hcoh x (by simp [hx]) r hr hk) y
    have hsub : ∀ x ∈ mapSetStep key acc r, x ∈ acc ++ r :: t := by
      intro x hx
      rcases (hstep x).mp hx with hx | rfl
      · simp [hx]
      · exact hr
    have hcoh' : ∀ x ∈ mapSetStep key acc r ++ t, ∀ y ∈ mapSetStep key acc r ++ t,
        key x = key y → x = y := by
      intro x hx y hy hk
      have hx' : x ∈ acc ++ r :: t := by
        rcases List.mem_append.mp hx with hx | hx
        · exact hsub x hx
        · simp [hx]
      have hy' : y ∈ acc ++ r :: t := by
        rcases List.mem_append.mp hy with hy | hy
        · exact hsub y hy
        · simp [hy]
      exact hcoh x hx' y hy' hk
    rw [ih (mapSetStep key acc r) hcoh' z, hstep z]
    simp only [List.mem_cons]
    tauto

theorem mem_dedupByKey {α : Type} (key : α → String) (l : List α)
    (hcoh : ∀ x ∈ l, ∀ y ∈ l, key x = key y → x = y) (z : α) :
    z ∈ dedupByKey key l ↔ z ∈ l := by
  unfold dedupByKey
  rw [mem_foldl_mapSet key l [] (by simpa using hcoh) z]
  simp

/-! ### Claim theorems -/

/-- C7: every Gateway read operation converts a backend failure raised by
the store into an empty result at its own `try`/`catch` boundary — the
list reads return `[]`, the point lookups return the not-found value —
and, being total functions, never propagate a raw exception. -/
theorem reads_degrade_on_backend_failure :
    (∀ store, getCategories true store = [])
    ∧ (∀ store, getMenuItems true store = [])
    ∧ (∀ store, getReservations true store = [])
    ∧ (∀ store, getOrders true store = [])
    ∧ (∀ uid store, getOrdersByUser true uid store = [])
    ∧ (∀ lid store, getOrdersByLivreur true lid store = [])
    ∧ (∀ store, getPendingOrders true store = [])
    ∧ (∀ id store, getMenuItem true id store = none)
    ∧ (∀ id store, getOrder true id store = none) :=
  ⟨fun _ => rfl, fun _ => rfl, fun _ => rfl, fun _ => rfl, fun _ _ => rfl,
   fun _ _ => rfl, fun _ => rfl, fun _ _ => rfl, fun _ _ => rfl⟩

/-- C6: `deleteMenuItem` is idempotent from the caller's perspective: on the
non-failing path it returns `true` whether or not the id exists, a call on a
non-existent id has the same outcome as on an existing one, and a second
call on the same id returns the same outcome and leaves the same store. -/
theorem deleteMenuItem_idempotent (id idOther : String)
    (store : List (String × MenuItemDoc)) :
    (deleteMenuItem false id store).1 = true
    ∧ (deleteMenuItem false id store).1 = (deleteMenuItem false idOther store).1
    ∧ (deleteMenuItem false id ((deleteMenuItem false id store).2)).1
        = (deleteMenuItem false id store).1
    ∧ (deleteMenuItem false id ((deleteMenuItem false id store).2)).2
        = (deleteMenuItem false id store).2 := by
  refine ⟨rfl, rfl, rfl, ?_⟩
  show (store.filter _).filter _ = store.filter _
  rw [List.filter_filter]
  simp

/-- C10: `createOrder` pins the status of the created order to `"pending"`
(any status carried by the payload is ignored), stamps `createdAt` and
`updatedAt` with the single creation instant, and passes the optional
caller fields through `?? null` unchanged. -/
theorem createOrder_fresh_state (insertOrder : InsertOrder) (id : String)
    (now : Nat) (store : List (String × OrderDoc)) :
    ((createOrder insertOrder id now store).1.status = some "pending")
    ∧ ((createOrder insertOrder id now store).1.createdAt
        = (createOrder insertOrder id now store).1.updatedAt)
    ∧ ((createOrder insertOrder id now store).1.createdAt = now)
    ∧ ((createOrder insertOrder id now store).1.userId = insertOrder.userId)
    ∧ ((createOrder insertOrder id now store).1.deliveryAddress
        = insertOrder.deliveryAddress)
    ∧ ((createOrder insertOrder id now store).1.notes = insertOrder.notes)
    ∧ ((createOrder insertOrder id now store).1.livreurId
        = insertOrder.livreurId)
    ∧ (∀ s, (createOrder { insertOrder with status := s } id now store).1
        = (createOrder insertOrder id now store).1) :=
  ⟨rfl, rfl, rfl, rfl, rfl, rfl, rfl, fun _ => rfl⟩

/-- C5: `createMenuItem` normalizes `price` and `deliveryFee` to decimal
strings whatever the input form — a numeric `n` becomes its decimal
rendering, a string is kept with its exact digits — so numeric `12` and
string `"12"` create records agreeing on `price = "12"`, and `deliveryFee`
defaults to `"0"` when absent. -/
theorem createMenuItem_money_normalized (insertItem : InsertMenuItem)
    (id : String) (store : List (String × MenuItemDoc)) (n : Int) :
    ((createMenuItem { insertItem with price := MoneyVal.num n } id store).1.price
        = MoneyVal.str (toString n))
    ∧ (∀ s, (createMenuItem { insertItem with price := MoneyVal.str s } id store).1.price
        = MoneyVal.str s)
    ∧ ((createMenuItem { insertItem with price := MoneyVal.num 12 } id store).1.price
        = (createMenuItem { insertItem with price := MoneyVal.str "12" } id store).1.price)
    ∧ ((createMenuItem { insertItem with price := MoneyVal.num 12 } id store).1.price
        = MoneyVal.str "12")
    ∧ (insertItem.deliveryFee = none →
        (createMenuItem insertItem id store).1.deliveryFee = MoneyVal.str "0")
    ∧ (∀ m, insertItem.deliveryFee = some m →
        (createMenuItem insertItem id store).1.deliveryFee
          = MoneyVal.str (moneyToString m)) := by
  refine ⟨rfl, fun s => rfl, by rfl, by rfl, ?_, ?_⟩
  · intro h
    simp [createMenuItem, h]
  · intro m hm
    cases m with
    | num k => simp [createMenuItem, hm, moneyToString]
    | str s => simp [createMenuItem, hm, moneyToString]

/-- Witness for `createMenuItem_money_normalized` at a concrete payload. -/
theorem createMenuItem_money_normalized_witness :
    exInsertMenuItem.deliveryFee = none
    ∧ (createMenuItem exInsertMenuItem "M9" []).1.deliveryFee = MoneyVal.str "0"
    ∧ (createMenuItem { exInsertMenuItem with price := MoneyVal.num 12 } "M9" []).1.price
        = MoneyVal.str "12" := by
  refine ⟨rfl, ?_, ?_⟩
  · exact (createMenuItem_money_normalized exInsertMenuItem "M9" [] 12).2.2.2.2.1 rfl
  · exact (createMenuItem_money_normalized exInsertMenuItem "M9" [] 12).2.2.2.1

/-- C8: initialization seeds the fixed set of 8 default categories exactly
when the category collection is empty, returns a non-empty store unchanged
(no duplicate, no alteration), and running it twice equals running it
once. -/
theorem initializeCategories_iff_empty (store : List (String × Category)) :
    (initializeCategories false store
      = if store.isEmpty then seededCategories else store)
    ∧ seededCategories.length = 8
    ∧ initializeCategories false (initializeCategories false store)
      = initializeCategories false store := by
  cases store with
  | nil =>
    refine ⟨rfl, rfl, ?_⟩
    have hseed : initializeCategories false ([] : List (String × Category))
        = seededCategories := rfl
    rw [hseed]
    have hne : seededCategories.isEmpty = false := rfl
    simp [initializeCategories, hne]
  | cons kd t => exact ⟨rfl, rfl, rfl⟩

theorem mem_setDocIn {β : Type} (id : String) (d : β)
    (store : List (String × β)) : (id, d) ∈ setDocIn id d store := by
  unfold setDocIn
  by_cases h : store.any (fun kd => kd.1 == id) = true
  · rw [if_pos h]
    obtain ⟨w, hw, hkw⟩ := List.any_eq_true.mp h
    exact List.mem_map.mpr ⟨w, hw, by rw [if_pos hkw]⟩
  · rw [if_neg h]
    simp

/-- C9: `getCategories` is sorted by `order` ascending, `getOrders` and
`getReservations` by `createdAt` descending; a reservation created at
instant `now` appears in the next `getReservations` result at a position
strictly before every reservation with an earlier creation instant. -/
theorem list_reads_sorted (storeC : List (String × Category))
    (storeO : List (String × OrderDoc))
    (storeR : List (String × ReservationDoc))
    (ins : InsertReservation) (id : String) (now : Nat) :
    (∀ i j : Fin (getCategories false storeC).length, i < j →
      ((getCategories false storeC).get i).order
        ≤ ((getCategories false storeC).get j).order)
    ∧ (∀ i j : Fin (getOrders false storeO).length, i < j →
      ((getOrders false storeO).get j).createdAt
        ≤ ((getOrders false storeO).get i).createdAt)
    ∧ (∀ i j : Fin (reservationsAfterCreate ins id now storeR).length, i < j →
      ((reservationsAfterCreate ins id now storeR).get j).createdAt
        ≤ ((reservationsAfterCreate ins id now storeR).get i).createdAt)
    ∧ (∃ i : Fin (reservationsAfterCreate ins id now storeR).length,
        ((reservationsAfterCreate ins id now storeR).get i).id = id
        ∧ ((reservationsAfterCreate ins id now storeR).get i).createdAt = now
        ∧ ∀ j : Fin (reservationsAfterCreate ins id now storeR).length,
            ((reservationsAfterCreate ins id now storeR).get j).createdAt < now
            → i < j) := by
  have hcatsort :
      (getCategories false storeC).Pairwise
        (fun a b => a.order ≤ b.order) := by
    have hp := pairwise_sortByLe
      (fun a b : Category => decide (a.order ≤ b.order))
      (fun a b => by
        rcases Nat.le_total a.order b.order with h | h
        · exact Or.inl (by simpa using h)
        · exact Or.inr (by simpa using h))
      (fun a b c hab hbc => by
        simp only [decide_eq_true_eq] at hab hbc ⊢
        omega)
      (storeC.map Prod.snd)
    have hgc : getCategories false storeC
        = sortByLe (fun a b : Category => decide (a.order ≤ b.order))
            (storeC.map Prod.snd) := rfl
    rw [hgc]
    exact hp.imp (fun h => by simpa using h)
  have hdesc : ∀ {β : Type} (created : β → Nat)
      (s : List (String × β)),
      (sortByLe (createdDesc created) s).Pairwise
        (fun a b => created b.2 ≤ created a.2) := by
    intro β created s
    have hp := pairwise_sortByLe (createdDesc created)
      (fun a b => by
        rcases Nat.le_total (created a.2) (created b.2) with h | h
        · exact Or.inr (by simpa [createdDesc] using h)
        · exact Or.inl (by simpa [createdDesc] using h))
      (fun a b c hab hbc => by
        simp only [createdDesc, decide_eq_true_eq] at hab hbc ⊢
        omega)
      s
    exact hp.imp (fun h => by simpa [createdDesc] using h)
  have hordsort :
      (getOrders false storeO).Pairwise
        (fun a b => b.createdAt ≤ a.createdAt) := by
    have hgo : getOrders false storeO
        = (sortByLe (createdDesc OrderDoc.createdAt) storeO).map
            (fun kd => orderDocFull kd.1 kd.2) := rfl
    rw [hgo]
    exact (hdesc OrderDoc.createdAt storeO).map _ (fun a b h => h)
  have hressort :
      (reservationsAfterCreate ins id now storeR).Pairwise
        (fun a b => b.createdAt ≤ a.createdAt) := by
    have hgr : reservationsAfterCreate ins id now storeR
        = (sortByLe (createdDesc ReservationDoc.createdAt)
            ((createReservation ins id now storeR).2)).map
            (fun kd => resDocToReservation kd.1 kd.2) := rfl
    rw [hgr]
    exact (hdesc ReservationDoc.createdAt _).map _ (fun a b h => h)
  refine ⟨fun i j hij => List.pairwise_iff_get.mp hcatsort i j hij,
    fun i j hij => List.pairwise_iff_get.mp hordsort i j hij,
    fun i j hij => List.pairwise_iff_get.mp hressort i j hij, ?_⟩
  have hmem : ∃ x ∈ reservationsAfterCreate ins id now storeR,
      x.id = id ∧ x.createdAt = now := by
    refine ⟨resDocToReservation id
      { name := ins.name, email := ins.email, phone := ins.phone,
        date := ins.date, time := ins.time, partySize := ins.partySize,
        specialRequests := ins.specialRequests, status := some "pending",
        createdAt := now }, ?_, rfl, rfl⟩
    have hgr : reservationsAfterCreate ins id now storeR
        = (sortByLe (createdDesc ReservationDoc.createdAt)
            ((createReservation ins id now storeR).2)).map
            (fun kd => resDocToReservation kd.1 kd.2) := rfl
    rw [hgr]
    refine List.mem_map.mpr ⟨(id,
      { name := ins.name, email := ins.email, phone := ins.phone,
        date := ins.date, time := ins.time, partySize := ins.partySize,
        specialRequests := ins.specialRequests, status := some "pending",
        createdAt := now }), ?_, rfl⟩
    rw [mem_sortByLe]
    exact mem_setDocIn id _ storeR
  obtain ⟨x, hx, hxid, hxat⟩ := hmem
  obtain ⟨i, hi⟩ := List.mem_iff_get.mp hx
  refine ⟨i, by rw [hi, hxid], by rw [hi, hxat], ?_⟩
  intro j hj
  by_contra hnot
  have hnot' : ¬ (i : ℕ) < (j : ℕ) := fun h => hnot (Fin.lt_def.mpr h)
  rcases Nat.lt_or_ge (j : ℕ) (i : ℕ) with hlt | hge
  · have := List.pairwise_iff_get.mp hressort j i (Fin.lt_def.mpr hlt)
    rw [hi, hxat] at this
    omega
  · have hij : (i : ℕ) = (j : ℕ) := by omega
    have hji' : i = j := Fin.ext hij
    rw [← hji', hi, hxat] at hj
    omega


theorem lookupDoc_updateDocIn {β : Type} (id : String) (f : β → β)
    (store : List (String × β)) :
    lookupDoc id (updateDocIn id f store) = (lookupDoc id store).map f := by
  induction store with
  | nil => rfl
  | cons kd t ih =>
    unfold updateDocIn at ih ⊢
    rw [List.map_cons]
    by_cases h : kd.1 = id
    · have hb : (kd.1 == id) = true := by simpa using h
      rw [if_pos hb]
      simp only [lookupDoc]
      rw [if_pos h, if_pos h]
      rfl
    · have hb : ¬((kd.1 == id) = true) := by simp [h]
      rw [if_neg hb]
      simp only [lookupDoc]
      rw [if_neg h, if_neg h]
      exact ih

theorem lookupDoc_updateDocIn_ne {β : Type} (id k : String) (hne : k ≠ id)
    (f : β → β) (store : List (String × β)) :
    lookupDoc k (updateDocIn id f store) = lookupDoc k store := by
  induction store with
  | nil => rfl
  | cons kd t ih =>
    unfold updateDocIn at ih ⊢
    rw [List.map_cons]
    by_cases h : kd.1 = id
    · have hb : (kd.1 == id) = true := by simpa using h
      rw [if_pos hb]
      have hkk : ¬(kd.1 = k) := by rw [h]; exact fun hh => hne hh.symm
      simp only [lookupDoc]
      rw [if_neg hkk, if_neg hkk]
      exact ih
    · have hb : ¬((kd.1 == id) = true) := by simp [h]
      rw [if_neg hb]
      simp only [lookupDoc]
      by_cases hk : kd.1 = k
      · rw [if_pos hk, if_pos hk]
      · rw [if_neg hk, if_neg hk]
        exact ih

/-- Witness for `list_reads_sorted` at a concrete store: the reservation
created at instant 5 sits before the pre-existing one created at 1. -/
theorem list_reads_sorted_witness :
    ∃ i : Fin (reservationsAfterCreate exInsertReservation "R2" 5 exResStore).length,
      ((reservationsAfterCreate exInsertReservation "R2" 5 exResStore).get i).id = "R2"
      ∧ ((reservationsAfterCreate exInsertReservation "R2" 5 exResStore).get i).createdAt = 5
      ∧ ∀ j : Fin (reservationsAfterCreate exInsertReservation "R2" 5 exResStore).length,
          ((reservationsAfterCreate exInsertReservation "R2" 5 exResStore).get j).createdAt < 5
          → i < j :=
  (list_reads_sorted [] [] exResStore exInsertReservation "R2" 5).2.2.2

/-- C3: an authenticated actor whose role is neither `livreur` nor `owner`
gets the forbidden outcome from the PATCH `/api/orders/:id` handler and no
write is issued — the store (hence every order document) is unchanged. -/
theorem patch_forbidden_other_roles (u : User) (oid : String)
    (reqStatus : Option String) (now : Nat)
    (store : List (String × OrderDoc)) (d : OrderDoc)
    (horder : lookupDoc oid store = some d)
    (hrole1 : u.role ≠ "livreur") (hrole2 : u.role ≠ "owner") :
    (patchOrderHandler (some u) oid reqStatus now store).1 = PatchOutcome.forbidden
    ∧ (patchOrderHandler (some u) oid reqStatus now store).2 = store := by
  have hget : getOrder false oid store = some (orderDocFull oid d) := by
    simp [getOrder, horder]
  have hcond : ¬(u.role = "livreur" ∨ u.role = "owner") := by
    rintro (h | h)
    · exact hrole1 h
    · exact hrole2 h
  constructor <;> simp [patchOrderHandler, hget, hcond]

/-- Witness for `patch_forbidden_other_roles`: a client on an existing
order. -/
theorem patch_forbidden_other_roles_witness :
    (patchOrderHandler (some { id := 7, role := "client" }) "O1"
      (some "confirmed") 9 exStoreUnassigned).1 = PatchOutcome.forbidden
    ∧ (patchOrderHandler (some { id := 7, role := "client" }) "O1"
      (some "confirmed") 9 exStoreUnassigned).2 = exStoreUnassigned :=
  patch_forbidden_other_roles { id := 7, role := "client" } "O1"
    (some "confirmed") 9 exStoreUnassigned exPendingUnassigned rfl
    (by decide) (by decide)

/-- C2: via PATCH `/api/orders/:id`, a livreur confirming an order whose
`livreurId` is null gets an order back with status `confirmed` and
`livreurId` set to their own id; and once an order document carries an
assigned courier, no status update through this handler — by any actor —
changes `livreurId`. -/
theorem livreur_claim_sticky (oid : String) (now : Nat)
    (store : List (String × OrderDoc)) (d : OrderDoc)
    (horder : lookupDoc oid store = some d) :
    (∀ u : User, u.role = "livreur" → 0 < u.id → natOrNull d.livreurId = none →
      ∃ o : Order,
        (patchOrderHandler (some u) oid (some "confirmed") now store).1
          = PatchOutcome.ok (some o)
        ∧ o.status = some "confirmed"
        ∧ o.livreurId = some u.id)
    ∧ (∀ c : Nat, natOrNull d.livreurId = some c →
        ∀ (u : User) (reqStatus : Option String) (d' : OrderDoc),
          lookupDoc oid ((patchOrderHandler (some u) oid reqStatus now store).2)
            = some d'
          → d'.livreurId = d.livreurId) := by
  have hget : getOrder false oid store = some (orderDocFull oid d) := by
    simp [getOrder, horder]
  constructor
  · intro u hrole hid hnone
    have hrole' : u.role = "livreur" ∨ u.role = "owner" := Or.inl hrole
    have hupd : patchUpd u (some "confirmed") (orderDocFull oid d)
        = { status := some "confirmed", livreurId := some u.id } := by
      unfold patchUpd
      rw [if_pos (by rfl : statusTruthy (some "confirmed") = true)]
      have hfal : optNatFalsy (orderDocFull oid d).livreurId = true := by
        show optNatFalsy (natOrNull d.livreurId) = true
        rw [hnone]
        rfl
      have hb : (u.role == "livreur") = true := by simpa using hrole
      simp [hfal, hb]
    have h1 : (patchOrderHandler (some u) oid (some "confirmed") now store).1
        = PatchOutcome.ok (getOrder false oid (updateDocIn oid
            (fun doc => applyOrderUpdates doc
              { status := some "confirmed", livreurId := some u.id } now)
            store)) := by
      simp only [patchOrderHandler, hget]
      rw [if_pos hrole']
      simp [hupd, updateOrder, horder]
    have h2 : getOrder false oid (updateDocIn oid
        (fun doc => applyOrderUpdates doc
          { status := some "confirmed", livreurId := some u.id } now) store)
        = some (orderDocFull oid (applyOrderUpdates d
            { status := some "confirmed", livreurId := some u.id } now)) := by
      simp [getOrder, lookupDoc_updateDocIn, horder]
    refine ⟨orderDocFull oid (applyOrderUpdates d
      { status := some "confirmed", livreurId := some u.id } now),
      by rw [h1, h2], rfl, ?_⟩
    show natOrNull (some u.id) = some u.id
    simp [natOrNull, Nat.pos_iff_ne_zero.mp hid]
  · intro c hc u reqStatus d' hd'
    have hc0 : c ≠ 0 ∧ d.livreurId = some c := by
      cases hl : d.livreurId with
      | none =>
        rw [hl] at hc
        simp [natOrNull] at hc
      | some n =>
        rw [hl] at hc
        simp only [natOrNull] at hc
        by_cases hn : n = 0
        · rw [if_pos hn] at hc
          exact absurd hc (by simp)
        · rw [if_neg hn] at hc
          injection hc with hc
          exact ⟨hc ▸ hn, by rw [hc]⟩
    have hfal : optNatFalsy (orderDocFull oid d).livreurId = false := by
      show optNatFalsy (natOrNull d.livreurId) = false
      rw [hc]
      simp [optNatFalsy, hc0.1]
    have hupdnone : (patchUpd u reqStatus (orderDocFull oid d)).livreurId = none := by
      unfold patchUpd
      by_cases hst : statusTruthy reqStatus = true
      · rw [if_pos hst]
        simp [hfal]
      · rw [if_neg hst]
    by_cases hrole : u.role = "livreur" ∨ u.role = "owner"
    · have hstore2 : (patchOrderHandler (some u) oid reqStatus now store).2
          = updateDocIn oid (fun doc => applyOrderUpdates doc
              (patchUpd u reqStatus (orderDocFull oid d)) now) store := by
        simp only [patchOrderHandler, hget]
        rw [if_pos hrole]
        simp [updateOrder, horder]
      rw [hstore2, lookupDoc_updateDocIn, horder] at hd'
      simp only [Option.map_some'] at hd'
      injection hd' with hd'
      rw [← hd']
      show (applyOrderUpdates d _ now).livreurId = d.livreurId
      simp [applyOrderUpdates, hupdnone]
    · have hunch : (patchOrderHandler (some u) oid reqStatus now store).2 = store := by
        simp [patchOrderHandler, hget, hrole]
      rw [hunch, horder] at hd'
      injection hd' with hd'
      rw [← hd']

/-- Witness for `livreur_claim_sticky`: courier 1 claims the unassigned
order `"O1"`, and courier 3 cannot move the `livreurId` of order `"O2"`
already assigned to courier 2. -/
theorem livreur_claim_sticky_witness :
    (∃ o : Order,
      (patchOrderHandler (some { id := 1, role := "livreur" }) "O1"
        (some "confirmed") 9 exStoreUnassigned).1 = PatchOutcome.ok (some o)
      ∧ o.status = some "confirmed" ∧ o.livreurId = some 1)
    ∧ (∀ d' : OrderDoc,
        lookupDoc "O2" ((patchOrderHandler (some { id := 3, role := "livreur" })
          "O2" (some "confirmed") 9 exStoreAssigned).2) = some d'
        → d'.livreurId = exPendingAssigned.livreurId) :=
  ⟨(livreur_claim_sticky "O1" 9 exStoreUnassigned exPendingUnassigned rfl).1
      { id := 1, role := "livreur" } rfl (by decide) rfl,
   fun d' hd' =>
    (livreur_claim_sticky "O2" 9 exStoreAssigned exPendingAssigned rfl).2
      2 rfl { id := 3, role := "livreur" } (some "confirmed") d' hd'⟩

/-- C4: `updateMenuItem` writes only the explicitly supplied fields — every
field of the payload resolving to undefined after normalization is removed
from the write, so each field absent from the payload keeps its stored
value, and documents under other ids are untouched. -/
theorem updateMenuItem_frame (id : String) (updates : MenuItemUpdates)
    (store : List (String × MenuItemDoc)) (d : MenuItemDoc)
    (hdoc : lookupDoc id store = some d) :
    ∃ d' : MenuItemDoc,
      lookupDoc id (updateMenuItem false id updates store).2 = some d'
      ∧ (updates.name = none → d'.name = d.name)
      ∧ (updates.description = none → d'.description = d.description)
      ∧ (updates.price = none → d'.price = d.price)
      ∧ (updates.deliveryFee = none → d'.deliveryFee = d.deliveryFee)
      ∧ (updates.categoryId = none → d'.categoryId = d.categoryId)
      ∧ (updates.imageUrl = none → d'.imageUrl = d.imageUrl)
      ∧ (updates.available = none → d'.available = d.available)
      ∧ (updates.popular = none → d'.popular = d.popular)
      ∧ (∀ k, k ≠ id → lookupDoc k (updateMenuItem false id updates store).2
          = lookupDoc k store) := by
  have hstore : (updateMenuItem false id updates store).2
      = updateDocIn id (fun doc => applyMenuUpdates doc
          (normalizeMenuUpdates updates)) store := by
    simp [updateMenuItem, hdoc]
  refine ⟨applyMenuUpdates d (normalizeMenuUpdates updates), ?_, ?_, ?_, ?_, ?_,
    ?_, ?_, ?_, ?_, ?_⟩
  · rw [hstore, lookupDoc_updateDocIn, hdoc]
    rfl
  · intro h
    simp [applyMenuUpdates, normalizeMenuUpdates, h]
  · intro h
    simp [applyMenuUpdates, normalizeMenuUpdates, h]
  · intro h
    simp [applyMenuUpdates, normalizeMenuUpdates, h]
  · intro h
    simp [applyMenuUpdates, normalizeMenuUpdates, h]
  · intro h
    simp [applyMenuUpdates, normalizeMenuUpdates, h]
  · intro h
    simp [applyMenuUpdates, normalizeMenuUpdates, h]
  · intro h
    simp [applyMenuUpdates, normalizeMenuUpdates, h]
  · intro h
    simp [applyMenuUpdates, normalizeMenuUpdates, h]
  · intro k hk
    rw [hstore, lookupDoc_updateDocIn_ne id k hk]

/-- Witness for `updateMenuItem_frame`: updating `"M1"` with only
`available := false` leaves name, price and image unchanged. -/
theorem updateMenuItem_frame_witness :
    ∃ d' : MenuItemDoc,
      lookupDoc "M1" (updateMenuItem false "M1"
        { available := some false } exMenuStore).2 = some d'
      ∧ d'.name = exMenuDoc.name
      ∧ d'.price = exMenuDoc.price
      ∧ d'.imageUrl = exMenuDoc.imageUrl := by
  obtain ⟨d', hl, hn, hdesc, hp, hdf, hcat, him, hav, hpop, hrest⟩ :=
    updateMenuItem_frame "M1" { available := some false } exMenuStore exMenuDoc rfl
  exact ⟨d', hl, hn rfl, hp rfl, him rfl⟩

theorem keyed_nodup_eq {β : Type} (store : List (String × β))
    (hnd : (store.map Prod.fst).Nodup) (k : String) (d1 d2 : β)
    (h1 : (k, d1) ∈ store) (h2 : (k, d2) ∈ store) : d1 = d2 := by
  induction store with
  | nil => cases h1
  | cons kd t ih =>
    rw [List.map_cons, List.nodup_cons] at hnd
    rcases List.mem_cons.mp h1 with h1e | h1t
    · rcases List.mem_cons.mp h2 with h2e | h2t
      · have := h1e.trans h2e.symm
        injection this
      · exfalso
        apply hnd.1
        have hk : kd.1 = k := by rw [← h1e]
        rw [hk]
        exact List.mem_map.mpr ⟨(k, d2), h2t, rfl⟩
    · rcases List.mem_cons.mp h2 with h2e | h2t
      · exfalso
        apply hnd.1
        have hk : kd.1 = k := by rw [← h2e]
        rw [hk]
        exact List.mem_map.mpr ⟨(k, d1), h1t, rfl⟩
      · exact ih hnd.2 h1t h2t

theorem mem_getPendingOrders (store : List (String × OrderDoc)) (o : Order) :
    o ∈ getPendingOrders false store ↔
      ∃ kd : String × OrderDoc, kd ∈ store ∧ kd.2.status = some "pending"
        ∧ o = orderDocPending kd.1 kd.2 := by
  show o ∈ (sortByLe (createdDesc OrderDoc.createdAt)
      (store.filter (fun kd => kd.2.status == some "pending"))).map
      (fun kd => orderDocPending kd.1 kd.2) ↔ _
  rw [List.mem_map]
  constructor
  · rintro ⟨kd, hkd, rfl⟩
    rw [mem_sortByLe, List.mem_filter] at hkd
    exact ⟨kd, hkd.1, by simpa using hkd.2, rfl⟩
  · rintro ⟨kd, hmem, hstat, rfl⟩
    refine ⟨kd, ?_, rfl⟩
    rw [mem_sortByLe, List.mem_filter]
    exact ⟨hmem, by simpa using hstat⟩

theorem mem_getOrdersByLivreur (store : List (String × OrderDoc)) (uid : Nat)
    (o : Order) :
    o ∈ getOrdersByLivreur false uid store ↔
      ∃ kd : String × OrderDoc, kd ∈ store ∧ kd.2.livreurId = some uid
        ∧ o = orderDocByLivreur kd.1 kd.2 := by
  show o ∈ (sortByLe (createdDesc OrderDoc.createdAt)
      (store.filter (fun kd => kd.2.livreurId == some uid))).map
      (fun kd => orderDocByLivreur kd.1 kd.2) ↔ _
  rw [List.mem_map]
  constructor
  · rintro ⟨kd, hkd, rfl⟩
    rw [mem_sortByLe, List.mem_filter] at hkd
    exact ⟨kd, hkd.1, by simpa using hkd.2, rfl⟩
  · rintro ⟨kd, hmem, hliv, rfl⟩
    refine ⟨kd, ?_, rfl⟩
    rw [mem_sortByLe, List.mem_filter]
    exact ⟨hmem, by simpa using hliv⟩

theorem orderDocByLivreur_eq_pending (k : String) (d : OrderDoc) (uid : Nat)
    (h : d.livreurId = some uid) (h0 : uid ≠ 0) :
    orderDocByLivreur k d = orderDocPending k d := by
  simp [orderDocByLivreur, orderDocPending, h, natOrNull, h0]

/-- C1 counterexample: the store holds the single order `"O2"`, `pending`
but already assigned to courier 2.  Courier 1's GET `/api/orders` view
contains `"O2"` even though the claim says a pending order assigned to a
different courier is not in this actor's view (and the spec-side
visibility predicate indeed excludes it). -/
theorem livreur_view_counterexample :
    listOrdersHandler (some { id := 1, role := "livreur" }) false exStoreAssigned
      = ListOrdersResult.ok [orderDocPending "O2" exPendingAssigned]
    ∧ specLivreurSees 1 exStoreAssigned "O2" = false
    ∧ exPendingAssigned.status = some "pending"
    ∧ exPendingAssigned.livreurId = some 2 :=
  ⟨rfl, rfl, rfl, rfl⟩

/-- C1 amended: for an authenticated livreur the GET `/api/orders` handler
returns — up to the `createdAt`-descending presentation order and the
id-keyed merge — exactly the orders whose stored status is `"pending"`
(regardless of any assigned courier) together with the orders assigned to
this courier, each order id at most once. -/
theorem livreur_view_amended (uid : Nat) (store : List (String × OrderDoc))
    (h0 : 0 < uid) (hnd : (store.map Prod.fst).Nodup) :
    ∃ v : List Order,
      listOrdersHandler (some { id := uid, role := "livreur" }) false store
        = ListOrdersResult.ok v
      ∧ ∀ o : Order, o ∈ v ↔
          ∃ kd : String × OrderDoc, kd ∈ store ∧ o = orderDocPending kd.1 kd.2
            ∧ (kd.2.status = some "pending" ∨ kd.2.livreurId = some uid) := by
  have hu0 : uid ≠ 0 := Nat.pos_iff_ne_zero.mp h0
  refine ⟨dedupByKey Order.id
    (getPendingOrders false store ++ getOrdersByLivreur false uid store),
    rfl, ?_⟩
  intro o
  have hpend : ∀ x ∈ getPendingOrders false store
      ++ getOrdersByLivreur false uid store,
      ∃ kd : String × OrderDoc, kd ∈ store ∧ x = orderDocPending kd.1 kd.2 := by
    intro x hx
    rcases List.mem_append.mp hx with hx | hx
    · obtain ⟨kd, hmem, _, rfl⟩ := (mem_getPendingOrders store x).mp hx
      exact ⟨kd, hmem, rfl⟩
    · obtain ⟨kd, hmem, hliv, rfl⟩ := (mem_getOrdersByLivreur store uid x).mp hx
      exact ⟨kd, hmem, orderDocByLivreur_eq_pending kd.1 kd.2 uid hliv hu0⟩
  have hcoh : ∀ x ∈ getPendingOrders false store
      ++ getOrdersByLivreur false uid store,
      ∀ y ∈ getPendingOrders false store
      ++ getOrdersByLivreur false uid store,
      x.id = y.id → x = y := by
    intro x hx y hy hxy
    obtain ⟨kx, hkx, rfl⟩ := hpend x hx
    obtain ⟨ky, hky, rfl⟩ := hpend y hy
    have hk : kx.1 = ky.1 := hxy
    have hex : (kx.1, kx.2) ∈ store := by
      rw [Prod.mk.eta]
      exact hkx
    have hey : (kx.1, ky.2) ∈ store := by
      rw [hk, Prod.mk.eta]
      exact hky
    have hd : kx.2 = ky.2 := keyed_nodup_eq store hnd kx.1 kx.2 ky.2 hex hey
    rw [hk, hd]
  rw [mem_dedupByKey Order.id _ hcoh, List.mem_append,
    mem_getPendingOrders, mem_getOrdersByLivreur]
  constructor
  · rintro (⟨kd, hmem, hstat, rfl⟩ | ⟨kd, hmem, hliv, rfl⟩)
    · exact ⟨kd, hmem, rfl, Or.inl hstat⟩
    · exact ⟨kd, hmem,
        (orderDocByLivreur_eq_pending kd.1 kd.2 uid hliv hu0).symm ▸ rfl,
        Or.inr hliv⟩
  · rintro ⟨kd, hmem, rfl, hstat | hliv⟩
    · exact Or.inl ⟨kd, hmem, hstat, rfl⟩
    · exact Or.inr ⟨kd, hmem, hliv,
        (orderDocByLivreur_eq_pending kd.1 kd.2 uid hliv hu0).symm⟩

/-- Witness for `livreur_view_amended` on the one-order store whose pending
order is assigned to courier 2, viewed by courier 1. -/
theorem livreur_view_amended_witness :
    ∃ v : List Order,
      listOrdersHandler (some { id := 1, role := "livreur" }) false exStoreAssigned
        = ListOrdersResult.ok v
      ∧ ∀ o : Order, o ∈ v ↔
          ∃ kd : String × OrderDoc, kd ∈ exStoreAssigned
            ∧ o = orderDocPending kd.1 kd.2
            ∧ (kd.2.status = some "pending" ∨ kd.2.livreurId = some 1) :=
  livreur_view_amended 1 exStoreAssigned (by decide) (by decide)
